import Mathlib

/-!
Verification development for the alerts persistence layer
(SQLiteAlertStorage.cpp of the avs-device-sdk alerts capability agent).

The three SQLite tables (alerts_v2, alertAssets, alertAssetPlayOrderItems)
are modelled as Lean lists of row records; the repository operations
(store, load, modify, erase, batch erase, V1-to-V2 migration) are
translated statement by statement from the source.  Engine calls that
always succeed on well-formed data (statement creation, bind, step) are
modelled on their happy path; for the alertExists existence query the
failure branches of the source are modelled explicitly through an
EngineOutcome parameter, because two claims are about exactly those
branches.  SQL semantics of the fixed queries used by the source
(INSERT .. VALUES, SELECT COUNT(*) WHERE, UPDATE .. WHERE id=, DELETE
WHERE id=/alert_id=) are rendered as the corresponding list operations.
-/

namespace AlertStorage

/-- The three alert variants (Alarm, Timer, Reminder). -/
inductive AlertType
  | alarm
  | timer
  | reminder
deriving DecidableEq, Repr

/-- Modelled from the spec: the getTypeName member of each Alert variant
(Alarm.cpp, Timer.cpp, Reminder.cpp are not part of the sources); the spec
fixes the exposed alert-kind strings to ALARM, TIMER and REMINDER. -/
def AlertType.typeName : AlertType → String
  | .alarm => "ALARM"
  | .timer => "TIMER"
  | .reminder => "REMINDER"

/-- The ten lifecycle states of an alert (Alert::State). -/
inductive AlertState
  | unset
  | isSet
  | activating
  | active
  | snoozing
  | snoozed
  | stopping
  | stopped
  | completed
  | ready
deriving DecidableEq, Repr

/-- alertTypeToDbField of the source: maps the type-name string to the
integer code stored in the database, failing on unknown strings. -/
def alertTypeToDbField (s : String) : Option Int :=
  if s = "ALARM" then some 1
  else if s = "TIMER" then some 2
  else if s = "REMINDER" then some 3
  else none

/-- The type dispatch of loadHelper: integer code 1, 2, 3 selects the
Alarm, Timer, Reminder variant; any other code makes the load fail. -/
def dbFieldToAlertType (n : Int) : Option AlertType :=
  if n = 1 then some .alarm
  else if n = 2 then some .timer
  else if n = 3 then some .reminder
  else none

/-- alertStateToDbField of the source.  The C++ switch covers all ten
enumerators, so the conversion is total on the state type. -/
def alertStateToDbField : AlertState → Int
  | .unset => 1
  | .isSet => 2
  | .activating => 3
  | .active => 4
  | .snoozing => 5
  | .snoozed => 6
  | .stopping => 7
  | .stopped => 8
  | .completed => 9
  | .ready => 10

/-- dbFieldToAlertState of the source: partial inverse of the state
codec, failing on codes outside 1..10. -/
def dbFieldToAlertState (n : Int) : Option AlertState :=
  if n = 1 then some .unset
  else if n = 2 then some .isSet
  else if n = 3 then some .activating
  else if n = 4 then some .active
  else if n = 5 then some .snoozing
  else if n = 6 then some .snoozed
  else if n = 7 then some .stopping
  else if n = 8 then some .stopped
  else if n = 9 then some .completed
  else if n = 10 then some .ready
  else none

/-- Alert::Asset: an avs_id naming the asset and its source url. -/
structure Asset where
  id : String
  url : String
deriving DecidableEq, Repr

/-- The in-memory alert object as the storage layer sees it: the common
field set of the Alarm, Timer and Reminder variants together with the
asset configuration.  The assets list stands for the entries of the C++
std::map keyed by avs_id (each entry keyed by its Asset.id). -/
structure Alert where
  dbId : Int
  token : String
  type : AlertType
  state : AlertState
  scheduledTimeUnix : Int
  scheduledTimeIso : String
  loopCount : Int
  loopPauseMs : Int
  backgroundAssetId : String
  assets : List Asset
  assetPlayOrderItems : List String
deriving DecidableEq, Repr

/-- One row of the alerts_v2 table (also of the legacy V1 alerts table,
whose columns the source reads through the same name-dispatch path). -/
structure AlertRow where
  id : Int
  token : String
  type : Int
  state : Int
  scheduledTimeUnix : Int
  scheduledTimeIso : String
  assetLoopCount : Int
  assetLoopPauseMs : Int
  backgroundAsset : String
deriving DecidableEq, Repr

/-- One row of the alertAssets table. -/
structure AssetRow where
  id : Int
  alertId : Int
  avsId : String
  url : String
deriving DecidableEq, Repr

/-- One row of the alertAssetPlayOrderItems table. -/
structure PlayOrderRow where
  id : Int
  alertId : Int
  position : Int
  token : String
deriving DecidableEq, Repr

/-- The open database: contents of the three V2 tables, each as the list
of its rows in on-disk order (the order a SELECT visits them). -/
structure Database where
  alerts : List AlertRow
  alertAssets : List AssetRow
  playOrderItems : List PlayOrderRow
deriving DecidableEq, Repr

/-- Modelled from the spec: getTableMaxIntValue of SQLiteUtils (not part
of the sources) returns the maximum of an integer column, and 0 on an
empty table, per the spec clauses that ids are max-plus-one and that the
first id after clearDatabase is 1. -/
def getTableMaxIntValue (ids : List Int) : Int :=
  ids.foldl max 0

/-- The COUNT(*) result of the existence query of alertExists:
number of alerts_v2 rows carrying the given token. -/
def countTokenRows (db : Database) (token : String) : Nat :=
  (db.alerts.filter (fun r => r.token == token)).length

/-- Outcome of the engine calls made by the alertExists query; every
branch but ok corresponds to one early return-false in the source. -/
inductive EngineOutcome
  | ok
  | createFailed
  | bindFailed
  | stepFailed
  | convertFailed
deriving DecidableEq, Repr

/-- SQLiteAlertStorage::alertExists: true when COUNT(*) of rows with the
token is positive.  Statement creation, bind, step and string-to-int
conversion failures each return false, exactly as the source does. -/
def alertExistsWithOutcome (o : EngineOutcome) (db : Database) (token : String) : Bool :=
  match o with
  | .ok => decide (countTokenRows db token > 0)
  | .createFailed => false
  | .bindFailed => false
  | .stepFailed => false
  | .convertFailed => false

/-- alertExists on the happy engine path. -/
def alertExists (db : Database) (token : String) : Bool :=
  alertExistsWithOutcome .ok db token

/-- alertExistsByAlertId of the source: COUNT(*) of alerts_v2 rows whose
id column equals the given database id, compared with zero. -/
def alertExistsByAlertId (db : Database) (alertId : Int) : Bool :=
  decide ((db.alerts.filter (fun r => r.id == alertId)).length > 0)

/-- The rows inserted by the loop of storeAlertAssets: one alertAssets
row per asset, with consecutive fresh ids and the parent alert id. -/
def mkAssetRows (alertId : Int) : Int → List Asset → List AssetRow
  | _, [] => []
  | nextId, a :: rest =>
    { id := nextId, alertId := alertId, avsId := a.id, url := a.url }
      :: mkAssetRows alertId (nextId + 1) rest

/-- storeAlertAssets: returns early when the asset catalog is empty,
otherwise allocates ids from max-plus-one and appends one row per asset
in catalog order. -/
def storeAlertAssets (rows : List AssetRow) (alertId : Int) (assets : List Asset) :
    List AssetRow :=
  if assets.isEmpty then rows
  else rows ++ mkAssetRows alertId (getTableMaxIntValue (rows.map (fun r => r.id)) + 1) assets

/-- The rows inserted by the loop of storeAlertAssetPlayOrderItems:
consecutive fresh ids and 1-based consecutive play-order positions. -/
def mkPlayOrderRows (alertId : Int) : Int → Int → List String → List PlayOrderRow
  | _, _, [] => []
  | nextId, pos, tok :: rest =>
    { id := nextId, alertId := alertId, position := pos, token := tok }
      :: mkPlayOrderRows alertId (nextId + 1) (pos + 1) rest

/-- storeAlertAssetPlayOrderItems: returns early when the play-order
list is empty, otherwise allocates ids from max-plus-one and appends
one row per token with positions counted from 1. -/
def storeAlertAssetPlayOrderItems (rows : List PlayOrderRow) (alertId : Int)
    (items : List String) : List PlayOrderRow :=
  if items.isEmpty then rows
  else rows ++ mkPlayOrderRows alertId
    (getTableMaxIntValue (rows.map (fun r => r.id)) + 1) 1 items

/-- The insertion part of SQLiteAlertStorage::store, after the token
existence check: allocate id as max-plus-one over alerts_v2, convert the
type name and state through the codec, insert the parent row, then the
asset rows and play-order rows.  The returned Int is the assigned id the
source writes back into the alert object (alert->m_dbId = id). -/
def insertAlert (db : Database) (a : Alert) : Option (Int × Database) :=
  let id := getTableMaxIntValue (db.alerts.map (fun r => r.id)) + 1
  match alertTypeToDbField a.type.typeName with
  | none => none
  | some ty =>
    let row : AlertRow :=
      { id := id, token := a.token, type := ty, state := alertStateToDbField a.state,
        scheduledTimeUnix := a.scheduledTimeUnix,
        scheduledTimeIso := a.scheduledTimeIso,
        assetLoopCount := a.loopCount,
        assetLoopPauseMs := a.loopPauseMs,
        backgroundAsset := a.backgroundAssetId }
    some (id,
      { alerts := db.alerts ++ [row],
        alertAssets := storeAlertAssets db.alertAssets id a.assets,
        playOrderItems := storeAlertAssetPlayOrderItems db.playOrderItems id
          a.assetPlayOrderItems })

/-- SQLiteAlertStorage::store with the engine outcome of its alertExists
precondition check made explicit: if the existence query reports the
token present the call fails, otherwise the insertion proceeds. -/
def storeWithOutcome (o : EngineOutcome) (db : Database) (a : Alert) :
    Option (Int × Database) :=
  if alertExistsWithOutcome o db a.token then none
  else insertAlert db a

/-- SQLiteAlertStorage::store on the happy engine path. -/
def store (db : Database) (a : Alert) : Option (Int × Database) :=
  storeWithOutcome .ok db a

/-- The per-alert group of the alertAssetsMap built by loadAlertAssets
(rows visited in table order, grouped by alert_id), combined with the
attachment step of loadHelper, which writes each loaded asset into the
alert object map keyed by its avs_id (overwriting a previous entry with
the same key, as std::map operator square-bracket assignment does). -/
def upsertAsset (acc : List Asset) (a : Asset) : List Asset :=
  if acc.any (fun x => x.id == a.id) then
    acc.map (fun x => if x.id == a.id then a else x)
  else acc ++ [a]

/-- The assets read for one alert id: rows whose alert_id column
matches, in table order. -/
def assetsOf (rows : List AssetRow) (aid : Int) : List Asset :=
  (rows.filter (fun r => r.alertId == aid)).map (fun r => Asset.mk r.avsId r.url)

/-- loadAlertAssets restricted to one alert id: the assets of the rows
whose alert_id matches, in table order, deduplicated by avs_id. -/
def loadAlertAssets (db : Database) (alertId : Int) : List Asset :=
  (assetsOf db.alertAssets alertId).foldl upsertAsset []

/-- AssetOrderItem of the source: play-order position paired with the
asset token. -/
structure AssetOrderItem where
  index : Int
  name : String
deriving DecidableEq, Repr

/-- Insertion into the std::set ordered by AssetOrderItemCompare (strict
comparison on index): an item whose index already occurs is not inserted,
as std::set::insert ignores an equivalent element. -/
def insertOrderItem (item : AssetOrderItem) : List AssetOrderItem → List AssetOrderItem
  | [] => [item]
  | x :: xs =>
    if item.index < x.index then item :: x :: xs
    else if x.index < item.index then x :: insertOrderItem item xs
    else x :: xs

/-- The play-order items read for one alert id: rows whose alert_id
column matches, in table order. -/
def playOrderItemsOf (rows : List PlayOrderRow) (aid : Int) : List AssetOrderItem :=
  (rows.filter (fun r => r.alertId == aid)).map
    (fun r => AssetOrderItem.mk r.position r.token)

/-- loadAlertAssetPlayOrderItems restricted to one alert id: the rows
whose alert_id matches are visited in table order and inserted into the
set ordered by position. -/
def loadAlertAssetPlayOrderItems (db : Database) (alertId : Int) : List AssetOrderItem :=
  (playOrderItemsOf db.playOrderItems alertId).foldl (fun s i => insertOrderItem i s) []

/-- One row of the alerts-table loop of loadHelper: dispatch the type
code to an alert variant (failing on an unknown code), convert the state
code (failing on an unknown code), set the remaining fields from the
columns, and attach the children collected from the other two tables.
The scheduled unix time is not read from its column: the source only
calls setTime_ISO_8601 with the iso string, so the unix field is
whatever that setter derives from the string, here the parseIso
parameter (modelled from the spec, since Alert.cpp is not part of the
sources and the spec requires the two time fields to denote the same
instant). -/
def loadAlertRow (parseIso : String → Int) (db : Database) (r : AlertRow) : Option Alert :=
  match dbFieldToAlertType r.type with
  | none => none
  | some ty =>
    match dbFieldToAlertState r.state with
    | none => none
    | some st =>
      some { dbId := r.id, token := r.token, type := ty, state := st,
             scheduledTimeUnix := parseIso r.scheduledTimeIso,
             scheduledTimeIso := r.scheduledTimeIso,
             loopCount := r.assetLoopCount,
             loopPauseMs := r.assetLoopPauseMs,
             backgroundAssetId := r.backgroundAsset,
             assets := loadAlertAssets db r.id,
             assetPlayOrderItems :=
               (loadAlertAssetPlayOrderItems db r.id).map (fun i => i.name) }

/-- The row loop of loadHelper: rows processed in table order, the first
failing row aborting the whole load. -/
def loadRows (f : AlertRow → Option Alert) : List AlertRow → Option (List Alert)
  | [] => some []
  | r :: rest =>
    match f r with
    | none => none
    | some a =>
      match loadRows f rest with
      | none => none
      | some l => some (a :: l)

/-- SQLiteAlertStorage::load (loadHelper at database version two). -/
def load (parseIso : String → Int) (db : Database) : Option (List Alert) :=
  loadRows (loadAlertRow parseIso db) db.alerts

/-- SQLiteAlertStorage::modify: fails when no alerts_v2 row carries the
alert token, otherwise runs UPDATE alerts_v2 SET state, scheduled unix
time and iso string WHERE id equals the alert database id. -/
def modify (db : Database) (a : Alert) : Option Database :=
  if alertExists db a.token then
    some { db with alerts := db.alerts.map (fun r =>
      if r.id == a.dbId then
        { r with state := alertStateToDbField a.state,
                 scheduledTimeUnix := a.scheduledTimeUnix,
                 scheduledTimeIso := a.scheduledTimeIso }
      else r) }
  else none

/-- eraseAlertByAlertId of the source: the three DELETE statements, on
alerts_v2 by id and on the two child tables by alert_id. -/
def eraseAlertByAlertId (db : Database) (alertId : Int) : Database :=
  { alerts := db.alerts.filter (fun r => r.id != alertId),
    alertAssets := db.alertAssets.filter (fun r => r.alertId != alertId),
    playOrderItems := db.playOrderItems.filter (fun r => r.alertId != alertId) }

/-- SQLiteAlertStorage::erase(alert): fails when no alerts_v2 row carries
the alert token, otherwise deletes by the alert database id. -/
def erase (db : Database) (a : Alert) : Option Database :=
  if alertExists db a.token then some (eraseAlertByAlertId db a.dbId)
  else none

/-- SQLiteAlertStorage::erase(ids): the batch loop, in list order; each
id is checked with alertExistsByAlertId and the first missing id stops
the loop with failure, leaving the database as the prior ids left it. -/
def eraseByIds (db : Database) : List Int → Bool × Database
  | [] => (true, db)
  | id :: rest =>
    if alertExistsByAlertId db id then eraseByIds (eraseAlertByAlertId db id) rest
    else (false, db)

/-- SQLiteAlertStorage::clearDatabase: truncates the three tables. -/
def clearDatabase (_db : Database) : Database :=
  { alerts := [], alertAssets := [], playOrderItems := [] }

/-- The database file as the migration sees it: each table either absent
(none) or present with its rows. -/
structure FileState where
  alertsV2 : Option (List AlertRow)
  alertsV1 : Option (List AlertRow)
  assetsTable : Option (List AssetRow)
  playOrderTable : Option (List PlayOrderRow)
deriving DecidableEq, Repr

/-- The store loop of the migration: re-insert each loaded V1 alert
through the standard store pipeline, aborting on the first failure. -/
def storeList (db : Database) : List Alert → Option Database
  | [] => some db
  | a :: rest =>
    match store db a with
    | none => none
    | some (_, db2) => storeList db2 rest

/-- SQLiteAlertStorage::migrateAlertsDbFromV1ToV2: no-op when alerts_v2
exists; otherwise create alerts_v2 and any missing child table, and if a
legacy alerts table exists, load its rows through loadHelper at version
one, store each loaded alert into V2, and drop the legacy table. -/
def migrateAlertsDbFromV1ToV2 (parseIso : String → Int) (f : FileState) :
    Option FileState :=
  if f.alertsV2.isSome then some f
  else
    let assets := f.assetsTable.getD []
    let po := f.playOrderTable.getD []
    match f.alertsV1 with
    | none =>
      some { alertsV2 := some [], alertsV1 := none,
             assetsTable := some assets, playOrderTable := some po }
    | some v1rows =>
      let dbV1 : Database := { alerts := v1rows, alertAssets := assets, playOrderItems := po }
      match loadRows (loadAlertRow parseIso dbV1) v1rows with
      | none => none
      | some alertList =>
        match storeList { alerts := [], alertAssets := assets, playOrderItems := po }
            alertList with
        | none => none
        | some db2 =>
          some { alertsV2 := some db2.alerts, alertsV1 := none,
                 assetsTable := some db2.alertAssets,
                 playOrderTable := some db2.playOrderItems }

/-- The V1 rows with ids reassigned consecutively from n, all other
columns untouched: the shape of the alerts_v2 table the migration
produces from a legacy table. -/
def renumberFrom : Int → List AlertRow → List AlertRow
  | _, [] => []
  | n, r :: rest => { r with id := n } :: renumberFrom (n + 1) rest

/-- Integer code of an alert type, as alertTypeToDbField yields it on
the three type-name strings. -/
def alertTypeCode : AlertType → Int
  | .alarm => 1
  | .timer => 2
  | .reminder => 3

/-- Strict comparison of AssetOrderItemCompare: order items by index. -/
def itemLt (a b : AssetOrderItem) : Prop :=
  a.index < b.index

instance : DecidableRel itemLt :=
  fun a b => inferInstanceAs (Decidable (a.index < b.index))

instance : IsAntisymm AssetOrderItem itemLt :=
  ⟨fun _ _ h1 h2 => absurd (lt_trans h1 h2) (lt_irrefl _)⟩

/-- The relation between a V1 row and the in-memory alert that loadHelper
at version one builds from it when both child tables are empty. -/
def migratedAlertOf (parseIso : String → Int) (r : AlertRow) (a : Alert) : Prop :=
  a.token = r.token ∧
  a.assets = [] ∧
  a.assetPlayOrderItems = [] ∧
  alertTypeToDbField a.type.typeName = some r.type ∧
  alertStateToDbField a.state = r.state ∧
  a.scheduledTimeUnix = parseIso r.scheduledTimeIso ∧
  a.scheduledTimeIso = r.scheduledTimeIso ∧
  a.loopCount = r.assetLoopCount ∧
  a.loopPauseMs = r.assetLoopPauseMs ∧
  a.backgroundAssetId = r.backgroundAsset

/-- The alerts_v2 row that the insertion part of store writes for an
alert assigned the given database id. -/
def storedAlertRow (id : Int) (a : Alert) : AlertRow :=
  { id := id, token := a.token, type := alertTypeCode a.type,
    state := alertStateToDbField a.state,
    scheduledTimeUnix := a.scheduledTimeUnix,
    scheduledTimeIso := a.scheduledTimeIso,
    assetLoopCount := a.loopCount,
    assetLoopPauseMs := a.loopPauseMs,
    backgroundAsset := a.backgroundAssetId }

/-- Concrete data: the empty database, as createDatabase leaves it. -/
def dbEmpty : Database := { alerts := [], alertAssets := [], playOrderItems := [] }

/-- Concrete data for the id-reuse scenario: first alert. -/
def cexAlert1 : Alert := ⟨0, "t1", .alarm, .isSet, 0, "T", 0, 0, "", [], []⟩

/-- Concrete data for the id-reuse scenario: second alert; its dbId field
holds 2, the id store assigns to it. -/
def cexAlert2 : Alert := ⟨2, "t2", .alarm, .isSet, 0, "T", 0, 0, "", [], []⟩

/-- Concrete data for the id-reuse scenario: third alert. -/
def cexAlert3 : Alert := ⟨0, "t3", .alarm, .isSet, 0, "T", 0, 0, "", [], []⟩

/-- Concrete data: database holding only the first alert row. -/
def cexDb1 : Database := ⟨[⟨1, "t1", 1, 2, 0, "T", 0, 0, ""⟩], [], []⟩

/-- Concrete data: database holding the first and second alert rows. -/
def cexDb2 : Database :=
  ⟨[⟨1, "t1", 1, 2, 0, "T", 0, 0, ""⟩, ⟨2, "t2", 1, 2, 0, "T", 0, 0, ""⟩], [], []⟩

/-- Concrete data: database after the third store reused id 2. -/
def cexDb4 : Database :=
  ⟨[⟨1, "t1", 1, 2, 0, "T", 0, 0, ""⟩, ⟨2, "t3", 1, 2, 0, "T", 0, 0, ""⟩], [], []⟩

/-- Concrete data: a one-alert database used by several witnesses. -/
def wDbOne : Database := ⟨[⟨1, "t", 1, 2, 0, "T", 0, 0, ""⟩], [], []⟩

/-- Concrete data: an alert whose token matches wDbOne's row. -/
def wAlertTok : Alert := ⟨1, "t", .alarm, .isSet, 0, "T", 0, 0, "", [], []⟩

/-- Concrete data: modify request against wDbOne (state active, new
scheduled time). -/
def wAlertMod : Alert := ⟨1, "t", .alarm, .active, 9, "z", 0, 0, "", [], []⟩

/-- Concrete data: wDbOne after the modify request wAlertMod. -/
def wDbMod : Database := ⟨[⟨1, "t", 1, 4, 9, "z", 0, 0, ""⟩], [], []⟩

/-- Concrete data: a database with one alert and child rows, for the
erase witness. -/
def wDbErase : Database :=
  ⟨[⟨1, "t", 1, 2, 0, "T", 0, 0, ""⟩], [⟨1, 1, "a1", "u1"⟩], [⟨1, 1, 1, "a1"⟩]⟩

/-- Concrete data: wDbErase with alert 1 and its children deleted. -/
def wDbErased : Database := ⟨[], [], []⟩

/-- Concrete data: a two-alert database for the batch-erase witness. -/
def wDbBatch : Database :=
  ⟨[⟨1, "u1", 1, 2, 0, "T", 0, 0, ""⟩, ⟨2, "u2", 1, 2, 0, "T", 0, 0, ""⟩], [], []⟩

/-- Concrete data: wDbBatch after erasing id 1. -/
def wDbBatchAfter : Database := ⟨[⟨2, "u2", 1, 2, 0, "T", 0, 0, ""⟩], [], []⟩

/-- Concrete data: an alert whose token is present in wDbOne but whose
dbId matches no row there. -/
def wAlertGhost : Alert := ⟨99, "t", .alarm, .isSet, 0, "T", 0, 0, "", [], []⟩

/-- Concrete data: a database whose play-order rows for alert 1 sit in
descending position order. -/
def wDbPO : Database :=
  ⟨[⟨1, "t", 1, 2, 0, "T", 0, 0, ""⟩], [], [⟨1, 1, 2, "b"⟩, ⟨2, 1, 1, "a"⟩]⟩

/-- Concrete data: the same play-order rows in the opposite engine
order. -/
def wRowsPO : List PlayOrderRow := [⟨2, 1, 1, "a"⟩, ⟨1, 1, 2, "b"⟩]

/-- Concrete data: a fully populated alert for the round-trip witness
(two assets, a three-entry play order with a repeated token). -/
def w1Alert : Alert :=
  ⟨0, "t", .alarm, .isSet, 5, "iso", 1, 2, "bg",
   [⟨"a1", "u1"⟩, ⟨"a2", "u2"⟩], ["a1", "a2", "a1"]⟩

/-- Concrete data: the database produced by storing w1Alert into the
empty database. -/
def w1Db : Database :=
  ⟨[⟨1, "t", 1, 2, 5, "iso", 1, 2, "bg"⟩],
   [⟨1, 1, "a1", "u1"⟩, ⟨2, 1, "a2", "u2"⟩],
   [⟨1, 1, 1, "a1"⟩, ⟨2, 1, 2, "a2"⟩, ⟨3, 1, 3, "a1"⟩]⟩

/-- Concrete data: an iso-time parser consistent with w1Alert. -/
def w1Parse : String → Int := fun _ => 5

/-- Concrete data: two V1 rows for the migration witness. -/
def w2Rows : List AlertRow :=
  [⟨5, "tA", 1, 2, 7, "x", 0, 0, ""⟩, ⟨9, "tB", 2, 4, 7, "y", 1, 1, "b"⟩]

/-- Concrete data: an iso-time parser consistent with w2Rows. -/
def w2Parse : String → Int := fun _ => 7

section Lemmas

/-- Roundtrip of the type codec, write direction. -/
theorem alertTypeToDbField_typeName (t : AlertType) :
    alertTypeToDbField t.typeName = some (alertTypeCode t) := by
  cases t <;> rfl

/-- Roundtrip of the type codec, read direction. -/
theorem dbFieldToAlertType_code (t : AlertType) :
    dbFieldToAlertType (alertTypeCode t) = some t := by
  cases t <;> rfl

/-- Roundtrip of the state codec. -/
theorem dbFieldToAlertState_roundtrip (s : AlertState) :
    dbFieldToAlertState (alertStateToDbField s) = some s := by
  cases s <;> rfl

/-- A successfully decoded type code is re-encoded to itself. -/
theorem alertTypeToDbField_of_dbField {c : Int} {t : AlertType}
    (h : dbFieldToAlertType c = some t) : alertTypeToDbField t.typeName = some c := by
  unfold dbFieldToAlertType at h
  split_ifs at h with h1 h2 h3 <;>
    first
      | (injection h with h; subst h; subst h1; rfl)
      | (injection h with h; subst h; subst h2; rfl)
      | (injection h with h; subst h; subst h3; rfl)
      | exact absurd h (by simp)

/-- A successfully decoded state code is re-encoded to itself. -/
theorem alertStateToDbField_of_dbField {c : Int} {s : AlertState}
    (h : dbFieldToAlertState c = some s) : alertStateToDbField s = c := by
  unfold dbFieldToAlertState at h
  split_ifs at h with h1 h2 h3 h4 h5 h6 h7 h8 h9 h10 <;>
    first
      | (injection h with h; subst h; omega)
      | (injection h with h; subst h;
         simp only [alertStateToDbField] <;> omega)
      | exact absurd h (by simp)

/-- The fold computing a column maximum never goes below its seed. -/
theorem foldl_max_init_le (l : List Int) (a : Int) : a ≤ l.foldl max a := by
  induction l generalizing a with
  | nil => exact le_refl a
  | cons x xs ih => exact le_trans (le_max_left a x) (ih (max a x))

/-- Every column value is bounded by the column maximum fold. -/
theorem foldl_max_le_of_mem {l : List Int} {x : Int} (a : Int) (h : x ∈ l) :
    x ≤ l.foldl max a := by
  induction l generalizing a with
  | nil => cases h
  | cons y ys ih =>
    cases h with
    | head => exact le_trans (le_max_right a x) (foldl_max_init_le ys (max a x))
    | tail _ hmem => exact ih (max a y) hmem

/-- Every id in the list is bounded by getTableMaxIntValue. -/
theorem mem_le_getTableMaxIntValue {l : List Int} {x : Int} (h : x ∈ l) :
    x ≤ getTableMaxIntValue l :=
  foldl_max_le_of_mem 0 h

/-- Appending one value to the column folds the maximum with it. -/
theorem getTableMaxIntValue_append_singleton (l : List Int) (x : Int) :
    getTableMaxIntValue (l ++ [x]) = max (getTableMaxIntValue l) x := by
  unfold getTableMaxIntValue
  rw [List.foldl_append]
  rfl

/-- Closed form of the insertion part of store. -/
theorem insertAlert_eq (db : Database) (a : Alert) :
    insertAlert db a =
      some (getTableMaxIntValue (db.alerts.map (fun r => r.id)) + 1,
        { alerts := db.alerts ++
            [storedAlertRow (getTableMaxIntValue (db.alerts.map (fun r => r.id)) + 1) a],
          alertAssets := storeAlertAssets db.alertAssets
            (getTableMaxIntValue (db.alerts.map (fun r => r.id)) + 1) a.assets,
          playOrderItems := storeAlertAssetPlayOrderItems db.playOrderItems
            (getTableMaxIntValue (db.alerts.map (fun r => r.id)) + 1)
            a.assetPlayOrderItems }) := by
  unfold insertAlert
  rw [alertTypeToDbField_typeName]
  rfl

/-- Elimination form of a successful store: the token was reported
absent, the assigned id is max-plus-one, and the new database is the old
one with the parent row and the child rows appended. -/
theorem store_elim {db : Database} {a : Alert} {id : Int} {db2 : Database}
    (h : store db a = some (id, db2)) :
    alertExists db a.token = false ∧
    id = getTableMaxIntValue (db.alerts.map (fun r => r.id)) + 1 ∧
    db2 = { alerts := db.alerts ++ [storedAlertRow id a],
            alertAssets := storeAlertAssets db.alertAssets id a.assets,
            playOrderItems := storeAlertAssetPlayOrderItems db.playOrderItems id
              a.assetPlayOrderItems } := by
  unfold store storeWithOutcome at h
  cases hex : alertExistsWithOutcome EngineOutcome.ok db a.token with
  | true => rw [hex] at h; simp at h
  | false =>
    rw [hex] at h
    simp only [Bool.false_eq_true, if_false] at h
    rw [insertAlert_eq] at h
    have h' := Option.some.inj h
    rw [Prod.mk.injEq] at h'
    obtain ⟨hid, hdb⟩ := h'
    subst hid
    subst hdb
    exact ⟨hex, rfl, rfl⟩

/-- A database whose alerts_v2 table holds a row with the given token
reports the token as existing. -/
theorem alertExists_of_mem {db : Database} {r : AlertRow} (hmem : r ∈ db.alerts)
    {tok : String} (htok : r.token = tok) : alertExists db tok = true := by
  unfold alertExists alertExistsWithOutcome countTokenRows
  simp only [decide_eq_true_eq]
  have : r ∈ db.alerts.filter (fun x => x.token == tok) := by
    rw [List.mem_filter]
    exact ⟨hmem, by simp [htok]⟩
  exact List.length_pos.mpr (List.ne_nil_of_mem this)

/-- Generic map-against-itself form of Forall₂, used for UPDATE frame
conditions. -/
theorem forall₂_map_self {α : Type} {g : α → α} {P : α → α → Prop}
    (h : ∀ x, P (g x) x) : ∀ l : List α, List.Forall₂ P (l.map g) l := by
  intro l
  induction l with
  | nil => exact List.Forall₂.nil
  | cons x xs ih => exact List.Forall₂.cons (h x) ih

/-- The database id of a loaded alert is the id column of its row. -/
theorem loadAlertRow_dbId {p : String → Int} {db : Database} {r : AlertRow} {a : Alert}
    (h : loadAlertRow p db r = some a) : a.dbId = r.id := by
  unfold loadAlertRow at h
  cases hty : dbFieldToAlertType r.type with
  | none => rw [hty] at h; simp at h
  | some ty =>
    rw [hty] at h
    cases hst : dbFieldToAlertState r.state with
    | none => rw [hst] at h; simp at h
    | some st =>
      rw [hst] at h
      simp only [Option.some.injEq] at h
      rw [← h]

/-- Every alert produced by the row loop comes from some row of the
input list. -/
theorem loadRows_mem {f : AlertRow → Option Alert} {l : List AlertRow} {as : List Alert}
    (h : loadRows f l = some as) : ∀ x ∈ as, ∃ r ∈ l, f r = some x := by
  induction l generalizing as with
  | nil =>
    unfold loadRows at h
    have h' := Option.some.inj h
    subst h'
    intro x hx
    cases hx
  | cons r rest ih =>
    unfold loadRows at h
    cases hf : f r with
    | none => rw [hf] at h; simp at h
    | some a =>
      rw [hf] at h
      cases hrest : loadRows f rest with
      | none => rw [hrest] at h; simp at h
      | some l2 =>
        rw [hrest] at h
        simp only [Option.some.injEq] at h
        subst h
        intro x hx
        cases hx with
        | head => exact ⟨r, List.mem_cons_self r rest, hf⟩
        | tail _ hx2 =>
          obtain ⟨r2, hr2, hfr2⟩ := ih hrest x hx2
          exact ⟨r2, List.mem_cons_of_mem r hr2, hfr2⟩

/-- A batch erase that succeeded on a prefix continues on the rest from
the database the prefix left behind. -/
theorem eraseByIds_append {db dbAfter : Database} {l1 : List Int} (l2 : List Int)
    (h : eraseByIds db l1 = (true, dbAfter)) :
    eraseByIds db (l1 ++ l2) = eraseByIds dbAfter l2 := by
  induction l1 generalizing db with
  | nil =>
    unfold eraseByIds at h
    have h2 := congrArg Prod.snd h
    simp only at h2
    subst h2
    rfl
  | cons id rest ih =>
    cases hex : alertExistsByAlertId db id with
    | false =>
      unfold eraseByIds at h
      rw [hex] at h
      simp at h
    | true =>
      unfold eraseByIds at h
      rw [hex] at h
      simp only [eq_self_iff_true, if_true] at h
      show eraseByIds db (id :: (rest ++ l2)) = eraseByIds dbAfter l2
      simp only [eraseByIds]
      rw [hex]
      simp only [eq_self_iff_true, if_true]
      exact ih h

end Lemmas

/-- Claim C3: storing a second alert carrying an already-stored token
fails, and the first alert's row is still present (the failing call made
no change, so the first alert remains loadable). -/
theorem store_duplicate_token_fails (db : Database) (a1 a2 : Alert) (id1 : Int)
    (db1 : Database) (h1 : store db a1 = some (id1, db1)) (h2 : a2.token = a1.token) :
    store db1 a2 = none ∧ alertExists db1 a1.token = true ∧
    storedAlertRow id1 a1 ∈ db1.alerts ∧ (storedAlertRow id1 a1).token = a1.token := by
  obtain ⟨-, -, hdb⟩ := store_elim h1
  have hmem : storedAlertRow id1 a1 ∈ db1.alerts := by
    rw [hdb]
    exact List.mem_append_right _ (List.mem_singleton_self _)
  have hex : alertExists db1 a1.token = true := alertExists_of_mem hmem rfl
  refine ⟨?_, hex, hmem, rfl⟩
  unfold store storeWithOutcome
  have hex2 : alertExistsWithOutcome EngineOutcome.ok db1 a2.token = true := by
    rw [h2]; exact hex
  rw [hex2]
  simp

/-- Claim C3 witness: a concrete duplicate-token store rejected. -/
theorem store_duplicate_token_fails_witness :
    store wDbOne wAlertGhost = none ∧ alertExists wDbOne wAlertTok.token = true ∧
    storedAlertRow 1 wAlertTok ∈ wDbOne.alerts ∧
    (storedAlertRow 1 wAlertTok).token = wAlertTok.token :=
  store_duplicate_token_fails dbEmpty wAlertTok wAlertGhost 1 wDbOne (by decide) rfl

/-- Claim C4: a successful modify leaves both child tables untouched and
rewrites only the state, scheduled unix time and iso string of the row
whose id is the alert's database id; every other column of that row and
every other row survive unchanged. -/
theorem modify_updates_only_mutable_columns (db : Database) (a : Alert) (db2 : Database)
    (h : modify db a = some db2) :
    db2.alertAssets = db.alertAssets ∧
    db2.playOrderItems = db.playOrderItems ∧
    List.Forall₂ (fun r2 r : AlertRow =>
        r2.id = r.id ∧ r2.token = r.token ∧ r2.type = r.type ∧
        r2.assetLoopCount = r.assetLoopCount ∧
        r2.assetLoopPauseMs = r.assetLoopPauseMs ∧
        r2.backgroundAsset = r.backgroundAsset ∧
        (r.id = a.dbId →
          r2.state = alertStateToDbField a.state ∧
          r2.scheduledTimeUnix = a.scheduledTimeUnix ∧
          r2.scheduledTimeIso = a.scheduledTimeIso) ∧
        (r.id ≠ a.dbId → r2 = r)) db2.alerts db.alerts := by
  unfold modify at h
  cases hex : alertExists db a.token with
  | false => rw [hex] at h; simp at h
  | true =>
    rw [hex] at h
    simp only [eq_self_iff_true, if_true, Option.some.injEq] at h
    subst h
    refine ⟨rfl, rfl, ?_⟩
    apply forall₂_map_self
    intro r
    dsimp only
    by_cases hid : r.id = a.dbId
    · have hb : (r.id == a.dbId) = true := by simp [hid]
      rw [if_pos hb]
      exact ⟨rfl, rfl, rfl, rfl, rfl, rfl, fun _ => ⟨rfl, rfl, rfl⟩,
        fun hne => absurd hid hne⟩
    · have hb : ¬ ((r.id == a.dbId) = true) := by simp [hid]
      rw [if_neg hb]
      exact ⟨rfl, rfl, rfl, rfl, rfl, rfl, fun hc => absurd hc hid, fun _ => rfl⟩

/-- Claim C4 witness: a concrete modify touching exactly the three
mutable columns. -/
theorem modify_updates_only_mutable_columns_witness :
    wDbMod.alertAssets = wDbOne.alertAssets ∧
    wDbMod.playOrderItems = wDbOne.playOrderItems ∧
    List.Forall₂ (fun r2 r : AlertRow =>
        r2.id = r.id ∧ r2.token = r.token ∧ r2.type = r.type ∧
        r2.assetLoopCount = r.assetLoopCount ∧
        r2.assetLoopPauseMs = r.assetLoopPauseMs ∧
        r2.backgroundAsset = r.backgroundAsset ∧
        (r.id = wAlertMod.dbId →
          r2.state = alertStateToDbField wAlertMod.state ∧
          r2.scheduledTimeUnix = wAlertMod.scheduledTimeUnix ∧
          r2.scheduledTimeIso = wAlertMod.scheduledTimeIso) ∧
        (r.id ≠ wAlertMod.dbId → r2 = r)) wDbMod.alerts wDbOne.alerts :=
  modify_updates_only_mutable_columns wDbOne wAlertMod wDbMod (by decide)

/-- Claim C5: after a successful erase no row of any of the three tables
carries the erased alert's database id, so a subsequent load returns no
alert with that id. -/
theorem erase_removes_all_rows (db : Database) (a : Alert) (db2 : Database)
    (h : erase db a = some db2) :
    (∀ r ∈ db2.alerts, r.id ≠ a.dbId) ∧
    (∀ r ∈ db2.alertAssets, r.alertId ≠ a.dbId) ∧
    (∀ r ∈ db2.playOrderItems, r.alertId ≠ a.dbId) ∧
    ∀ (parseIso : String → Int) (l : List Alert), load parseIso db2 = some l →
      ∀ x ∈ l, x.dbId ≠ a.dbId := by
  unfold erase at h
  cases hex : alertExists db a.token with
  | false => rw [hex] at h; simp at h
  | true =>
    rw [hex] at h
    simp only [eq_self_iff_true, if_true, Option.some.injEq] at h
    subst h
    refine ⟨?_, ?_, ?_, ?_⟩
    · intro r hr
      simp only [eraseAlertByAlertId, List.mem_filter, bne_iff_ne] at hr
      exact hr.2
    · intro r hr
      simp only [eraseAlertByAlertId, List.mem_filter, bne_iff_ne] at hr
      exact hr.2
    · intro r hr
      simp only [eraseAlertByAlertId, List.mem_filter, bne_iff_ne] at hr
      exact hr.2
    · intro parseIso l hl x hx
      obtain ⟨r, hr, hfr⟩ := loadRows_mem hl x hx
      have hdbid := loadAlertRow_dbId hfr
      simp only [eraseAlertByAlertId, List.mem_filter, bne_iff_ne] at hr
      rw [hdbid]
      exact hr.2

/-- Claim C5 witness: a concrete erase wiping the parent and child rows. -/
theorem erase_removes_all_rows_witness :
    (∀ r ∈ wDbErased.alerts, r.id ≠ wAlertTok.dbId) ∧
    (∀ r ∈ wDbErased.alertAssets, r.alertId ≠ wAlertTok.dbId) ∧
    (∀ r ∈ wDbErased.playOrderItems, r.alertId ≠ wAlertTok.dbId) ∧
    ∀ (parseIso : String → Int) (l : List Alert), load parseIso wDbErased = some l →
      ∀ x ∈ l, x.dbId ≠ wAlertTok.dbId :=
  erase_removes_all_rows wDbErase wAlertTok wDbErased (by decide)

/-- Claim C6: batch erase processes ids in list order; once a prefix has
succeeded, the first id reported absent makes the whole call return
failure with the database exactly as the prefix left it, so no later id
of the list is processed. -/
theorem batch_erase_stops_at_first_missing (db : Database) (pre : List Int) (bad : Int)
    (rest : List Int) (dbAfter : Database)
    (h1 : eraseByIds db pre = (true, dbAfter))
    (h2 : alertExistsByAlertId dbAfter bad = false) :
    eraseByIds db (pre ++ bad :: rest) = (false, dbAfter) := by
  rw [eraseByIds_append (bad :: rest) h1]
  unfold eraseByIds
  rw [h2]
  simp

/-- Claim C6 witness: erasing ids 1, 3, 2 of a two-alert database fails
at the missing id 3 and leaves id 2 untouched. -/
theorem batch_erase_stops_at_first_missing_witness :
    eraseByIds wDbBatch ([1] ++ 3 :: [2]) = (false, wDbBatchAfter) :=
  batch_erase_stops_at_first_missing wDbBatch [1] 3 [2] wDbBatchAfter
    (by decide) (by decide)

/-- Claim C7 counterexample: four repository calls with no clearDatabase
in between: store assigns id 1, then id 2, an erase removes the alert
with id 2, and the next successful store assigns id 2 again, so the
sequence of assigned ids 1, 2, 2 is not strictly increasing. -/
theorem store_id_reuse_after_erase :
    store dbEmpty cexAlert1 = some (1, cexDb1) ∧
    store cexDb1 cexAlert2 = some (2, cexDb2) ∧
    erase cexDb2 cexAlert2 = some cexDb1 ∧
    store cexDb1 cexAlert3 = some (2, cexDb4) ∧
    ¬ List.Pairwise (fun x y : Int => x < y) [1, 2, 2] := by
  refine ⟨by decide, by decide, by decide, by decide, by decide⟩

/-- Claim C7 as amended: across consecutive successful store calls with
no other operation in between (in particular no erase and no
clearDatabase), each call assigns id equal to the current maximum id of
alerts_v2 plus one and returns it for write-back, and the assigned ids
are strictly increasing. -/
theorem store_assigns_max_plus_one_increasing (db : Database) (a b : Alert)
    (id1 id2 : Int) (db1 db2 : Database)
    (h1 : store db a = some (id1, db1)) (h2 : store db1 b = some (id2, db2)) :
    id1 = getTableMaxIntValue (db.alerts.map (fun r => r.id)) + 1 ∧
    id2 = getTableMaxIntValue (db1.alerts.map (fun r => r.id)) + 1 ∧
    id1 < id2 := by
  obtain ⟨-, hid1, hdb1⟩ := store_elim h1
  obtain ⟨-, hid2, -⟩ := store_elim h2
  refine ⟨hid1, hid2, ?_⟩
  have hmax : getTableMaxIntValue (db1.alerts.map (fun r => r.id)) =
      max (getTableMaxIntValue (db.alerts.map (fun r => r.id))) id1 := by
    rw [hdb1]
    simp only [List.map_append, List.map_cons, List.map_nil, storedAlertRow]
    exact getTableMaxIntValue_append_singleton _ _
  rw [hid2, hmax, hid1]
  have hle : getTableMaxIntValue (db.alerts.map (fun r => r.id)) ≤
      getTableMaxIntValue (db.alerts.map (fun r => r.id)) + 1 := by omega
  rw [max_eq_right hle]
  omega

/-- Claim C7 amended witness: two consecutive stores on the empty
database assign ids 1 and 2. -/
theorem store_assigns_max_plus_one_increasing_witness :
    (1 : Int) = getTableMaxIntValue (dbEmpty.alerts.map (fun r => r.id)) + 1 ∧
    (2 : Int) = getTableMaxIntValue (cexDb1.alerts.map (fun r => r.id)) + 1 ∧
    (1 : Int) < 2 :=
  store_assigns_max_plus_one_increasing dbEmpty cexAlert1 cexAlert2 1 2 cexDb1 cexDb2
    (by decide) (by decide)

/-- Claim C9: every engine failure inside the alertExists query
(statement creation, bind, step, count-string conversion) makes it
return false, the same value as token absence, and store then proceeds
with the insertion; if the token was in fact present the insertion goes
through and leaves two rows with the same token. -/
theorem alertExists_engine_failure_inserts (o : EngineOutcome) (db : Database)
    (a : Alert) (ho : o ≠ EngineOutcome.ok) :
    alertExistsWithOutcome o db a.token = false ∧
    storeWithOutcome o db a = insertAlert db a ∧
    (alertExists db a.token = true →
      ∃ id db2, storeWithOutcome o db a = some (id, db2) ∧
        2 ≤ countTokenRows db2 a.token) := by
  have hfalse : alertExistsWithOutcome o db a.token = false := by
    cases o with
    | ok => exact absurd rfl ho
    | createFailed => rfl
    | bindFailed => rfl
    | stepFailed => rfl
    | convertFailed => rfl
  have hstore : storeWithOutcome o db a = insertAlert db a := by
    unfold storeWithOutcome
    rw [hfalse]
    simp
  refine ⟨hfalse, hstore, ?_⟩
  intro hex
  refine ⟨getTableMaxIntValue (db.alerts.map (fun r => r.id)) + 1,
    { alerts := db.alerts ++
        [storedAlertRow (getTableMaxIntValue (db.alerts.map (fun r => r.id)) + 1) a],
      alertAssets := storeAlertAssets db.alertAssets
        (getTableMaxIntValue (db.alerts.map (fun r => r.id)) + 1) a.assets,
      playOrderItems := storeAlertAssetPlayOrderItems db.playOrderItems
        (getTableMaxIntValue (db.alerts.map (fun r => r.id)) + 1)
        a.assetPlayOrderItems },
    by rw [hstore, insertAlert_eq], ?_⟩
  have h1 : 0 < countTokenRows db a.token := by
    have hx : decide (countTokenRows db a.token > 0) = true := hex
    exact of_decide_eq_true hx
  show 2 ≤ (List.filter (fun r => r.token == a.token)
    (db.alerts ++
      [storedAlertRow (getTableMaxIntValue (db.alerts.map (fun r => r.id)) + 1) a])).length
  rw [List.filter_append, List.length_append]
  have h2 : (List.filter (fun r => r.token == a.token)
      [storedAlertRow (getTableMaxIntValue (db.alerts.map (fun r => r.id)) + 1) a]).length
      = 1 := by
    simp [storedAlertRow]
  unfold countTokenRows at h1
  omega

/-- Claim C9 witness: a step failure on a database already holding the
token still lets store insert, producing a duplicate token. -/
theorem alertExists_engine_failure_inserts_witness :
    alertExistsWithOutcome EngineOutcome.stepFailed wDbOne wAlertGhost.token = false ∧
    storeWithOutcome EngineOutcome.stepFailed wDbOne wAlertGhost =
      insertAlert wDbOne wAlertGhost ∧
    (alertExists wDbOne wAlertGhost.token = true →
      ∃ id db2, storeWithOutcome EngineOutcome.stepFailed wDbOne wAlertGhost =
        some (id, db2) ∧ 2 ≤ countTokenRows db2 wAlertGhost.token) :=
  alertExists_engine_failure_inserts EngineOutcome.stepFailed wDbOne wAlertGhost
    (by decide)

/-- Claim C10: erase checks its precondition by token but deletes by
database id; for an alert whose token is present but whose dbId matches
no row anywhere, erase reports success and the database, in particular
every row carrying that token, is completely unchanged. -/
theorem erase_checks_token_deletes_by_id (db : Database) (a : Alert)
    (h1 : alertExists db a.token = true)
    (h2 : ∀ r ∈ db.alerts, r.id ≠ a.dbId)
    (h3 : ∀ r ∈ db.alertAssets, r.alertId ≠ a.dbId)
    (h4 : ∀ r ∈ db.playOrderItems, r.alertId ≠ a.dbId) :
    erase db a = some db := by
  have e1 : db.alerts.filter (fun r => r.id != a.dbId) = db.alerts :=
    List.filter_eq_self.mpr (fun r hr => by simpa using h2 r hr)
  have e2 : db.alertAssets.filter (fun r => r.alertId != a.dbId) = db.alertAssets :=
    List.filter_eq_self.mpr (fun r hr => by simpa using h3 r hr)
  have e3 : db.playOrderItems.filter (fun r => r.alertId != a.dbId) = db.playOrderItems :=
    List.filter_eq_self.mpr (fun r hr => by simpa using h4 r hr)
  have hmain : eraseAlertByAlertId db a.dbId = db := by
    unfold eraseAlertByAlertId
    rw [e1, e2, e3]
  unfold erase
  rw [h1]
  simp [hmain]

/-- Claim C10 witness: token t is present in wDbOne, dbId 99 matches
nothing, and erase succeeds leaving the database unchanged. -/
theorem erase_checks_token_deletes_by_id_witness :
    erase wDbOne wAlertGhost = some wDbOne :=
  erase_checks_token_deletes_by_id wDbOne wAlertGhost (by decide) (by decide)
    (by decide) (by decide)

section SortingLemmas

/-- Members of a set insertion are the new item or old members. -/
theorem mem_insertOrderItem {i y : AssetOrderItem} :
    ∀ {s : List AssetOrderItem}, y ∈ insertOrderItem i s → y = i ∨ y ∈ s := by
  intro s
  induction s with
  | nil =>
    intro h
    unfold insertOrderItem at h
    exact Or.inl (List.mem_singleton.mp h)
  | cons x xs ih =>
    intro h
    unfold insertOrderItem at h
    by_cases h1 : i.index < x.index
    · rw [if_pos h1] at h
      rcases List.mem_cons.mp h with h | h
      · exact Or.inl h
      · exact Or.inr h
    · rw [if_neg h1] at h
      by_cases h2 : x.index < i.index
      · rw [if_pos h2] at h
        rcases List.mem_cons.mp h with h | h
        · exact Or.inr (h ▸ List.mem_cons_self x xs)
        · rcases ih h with h3 | h3
          · exact Or.inl h3
          · exact Or.inr (List.mem_cons_of_mem x h3)
      · rw [if_neg h2] at h
        exact Or.inr h

/-- Set insertion preserves sortedness by index. -/
theorem insertOrderItem_sorted {i : AssetOrderItem} :
    ∀ {s : List AssetOrderItem}, List.Sorted itemLt s →
      List.Sorted itemLt (insertOrderItem i s) := by
  intro s
  induction s with
  | nil =>
    intro _
    unfold insertOrderItem
    exact List.sorted_singleton i
  | cons x xs ih =>
    intro hs
    obtain ⟨hx, hxs⟩ := List.pairwise_cons.mp hs
    unfold insertOrderItem
    by_cases h1 : i.index < x.index
    · rw [if_pos h1]
      refine List.pairwise_cons.mpr ⟨?_, hs⟩
      intro y hy
      rcases List.mem_cons.mp hy with h | h
      · exact h ▸ h1
      · exact lt_trans h1 (hx y h)
    · rw [if_neg h1]
      by_cases h2 : x.index < i.index
      · rw [if_pos h2]
        refine List.pairwise_cons.mpr ⟨?_, ih hxs⟩
        intro y hy
        rcases mem_insertOrderItem hy with h | h
        · exact h ▸ h2
        · exact hx y h
      · rw [if_neg h2]
        exact hs

/-- When no old member shares the new item's index, set insertion is a
permutation of consing the item. -/
theorem insertOrderItem_perm {i : AssetOrderItem} :
    ∀ {s : List AssetOrderItem}, (∀ x ∈ s, x.index ≠ i.index) →
      (insertOrderItem i s).Perm (i :: s) := by
  intro s
  induction s with
  | nil =>
    intro _
    unfold insertOrderItem
    exact List.Perm.refl _
  | cons x xs ih =>
    intro hno
    unfold insertOrderItem
    by_cases h1 : i.index < x.index
    · rw [if_pos h1]
    · rw [if_neg h1]
      by_cases h2 : x.index < i.index
      · rw [if_pos h2]
        have step : (x :: insertOrderItem i xs).Perm (x :: i :: xs) :=
          List.Perm.cons x (ih (fun y hy => hno y (List.mem_cons_of_mem x hy)))
        exact step.trans (List.Perm.swap i x xs)
      · have : x.index = i.index := le_antisymm (not_lt.mp h1) (not_lt.mp h2)
        exact absurd this (hno x (List.mem_cons_self x xs))

/-- Folding set insertions over any row order keeps the accumulator
sorted. -/
theorem foldl_insertOrderItem_sorted :
    ∀ (l : List AssetOrderItem) (acc : List AssetOrderItem),
      List.Sorted itemLt acc →
      List.Sorted itemLt (l.foldl (fun s i => insertOrderItem i s) acc) := by
  intro l
  induction l with
  | nil => intro acc h; exact h
  | cons a rest ih =>
    intro acc h
    exact ih (insertOrderItem a acc) (insertOrderItem_sorted h)

/-- With pairwise distinct indices, folding set insertions is a
permutation of appending the items. -/
theorem foldl_insertOrderItem_perm :
    ∀ (l acc : List AssetOrderItem),
      (((acc ++ l).map (fun x => x.index)).Nodup) →
      (l.foldl (fun s i => insertOrderItem i s) acc).Perm (acc ++ l) := by
  intro l
  induction l with
  | nil =>
    intro acc _
    rw [List.append_nil]
    exact List.Perm.refl acc
  | cons a rest ih =>
    intro acc hnd
    have hmap : ((acc.map (fun x => x.index)) ++
        ((a :: rest).map (fun x => x.index))).Nodup := by
      rw [← List.map_append]
      exact hnd
    obtain ⟨-, -, disj⟩ := List.nodup_append.mp hmap
    have hno : ∀ x ∈ acc, x.index ≠ a.index := by
      intro x hx he
      exact disj (List.mem_map_of_mem _ hx)
        (he ▸ List.mem_map_of_mem _ (List.mem_cons_self a rest))
    have hstep : (insertOrderItem a acc).Perm (a :: acc) := insertOrderItem_perm hno
    have hperm3 : (insertOrderItem a acc ++ rest).Perm (acc ++ a :: rest) := by
      refine (hstep.append_right rest).trans ?_
      show (a :: (acc ++ rest)).Perm (acc ++ a :: rest)
      exact List.perm_middle.symm
    have hnd' : (((insertOrderItem a acc ++ rest).map (fun x => x.index)).Nodup) :=
      ((hperm3.map (fun x => x.index)).symm).nodup hnd
    have hrec := ih (insertOrderItem a acc) hnd'
    exact hrec.trans hperm3

/-- Indices of the items read from play-order rows are the positions. -/
theorem map_index_playOrderItemsOf (rows : List PlayOrderRow) (aid : Int) :
    (playOrderItemsOf rows aid).map (fun x => x.index) =
      (rows.filter (fun r => r.alertId == aid)).map (fun r => r.position) := by
  unfold playOrderItemsOf
  induction rows.filter (fun r => r.alertId == aid) with
  | nil => rfl
  | cons r rest ih => simp only [List.map_cons, ih]

/-- Names of the items read from play-order rows are the tokens. -/
theorem map_name_playOrderItemsOf (rows : List PlayOrderRow) (aid : Int) :
    (playOrderItemsOf rows aid).map (fun x => x.name) =
      (rows.filter (fun r => r.alertId == aid)).map (fun r => r.token) := by
  unfold playOrderItemsOf
  induction rows.filter (fun r => r.alertId == aid) with
  | nil => rfl
  | cons r rest ih => simp only [List.map_cons, ih]

end SortingLemmas

/-- Claim C8: when an alert's play-order rows carry pairwise distinct
positions, the loaded play-order collection is sorted in ascending
position, holds exactly the items of the matching rows, and is the same
whatever order the engine returns the table rows in. -/
theorem load_play_order_sorted (db : Database) (rows2 : List PlayOrderRow) (aid : Int)
    (hperm : rows2.Perm db.playOrderItems)
    (hnodup : ((db.playOrderItems.filter (fun r => r.alertId == aid)).map
      (fun r => r.position)).Nodup) :
    List.Sorted itemLt (loadAlertAssetPlayOrderItems db aid) ∧
    (loadAlertAssetPlayOrderItems db aid).Perm (playOrderItemsOf db.playOrderItems aid) ∧
    loadAlertAssetPlayOrderItems { db with playOrderItems := rows2 } aid =
      loadAlertAssetPlayOrderItems db aid := by
  have hidx : ((playOrderItemsOf db.playOrderItems aid).map (fun x => x.index)).Nodup := by
    rw [map_index_playOrderItemsOf]
    exact hnodup
  have hsorted1 : List.Sorted itemLt (loadAlertAssetPlayOrderItems db aid) :=
    foldl_insertOrderItem_sorted _ [] List.sorted_nil
  have hperm1 : (loadAlertAssetPlayOrderItems db aid).Perm
      (playOrderItemsOf db.playOrderItems aid) :=
    foldl_insertOrderItem_perm (playOrderItemsOf db.playOrderItems aid) [] hidx
  refine ⟨hsorted1, hperm1, ?_⟩
  have hpermI : (playOrderItemsOf rows2 aid).Perm
      (playOrderItemsOf db.playOrderItems aid) :=
    (hperm.filter _).map _
  have hidx2 : ((playOrderItemsOf rows2 aid).map (fun x => x.index)).Nodup :=
    ((hpermI.map (fun x => x.index)).symm).nodup hidx
  have hsorted2 : List.Sorted itemLt
      (loadAlertAssetPlayOrderItems { db with playOrderItems := rows2 } aid) :=
    foldl_insertOrderItem_sorted _ [] List.sorted_nil
  have hperm2 : (loadAlertAssetPlayOrderItems { db with playOrderItems := rows2 } aid).Perm
      (playOrderItemsOf rows2 aid) :=
    foldl_insertOrderItem_perm (playOrderItemsOf rows2 aid) [] hidx2
  exact List.eq_of_perm_of_sorted (hperm2.trans (hpermI.trans hperm1.symm))
    hsorted2 hsorted1

/-- Claim C8 witness: two rows returned in either order load as the
position-sorted items. -/
theorem load_play_order_sorted_witness :
    List.Sorted itemLt (loadAlertAssetPlayOrderItems wDbPO 1) ∧
    (loadAlertAssetPlayOrderItems wDbPO 1).Perm (playOrderItemsOf wDbPO.playOrderItems 1) ∧
    loadAlertAssetPlayOrderItems { wDbPO with playOrderItems := wRowsPO } 1 =
      loadAlertAssetPlayOrderItems wDbPO 1 :=
  load_play_order_sorted wDbPO wRowsPO 1 (by decide) (by decide)

section RoundTripLemmas

/-- A filter whose predicate rejects every member is empty. -/
theorem filter_eq_nil_of_ne {α : Type} {p : α → Bool} :
    ∀ {l : List α}, (∀ x ∈ l, p x = false) → l.filter p = [] := by
  intro l
  induction l with
  | nil => intro _; rfl
  | cons x xs ih =>
    intro h
    rw [List.filter_cons, h x (List.mem_cons_self x xs)]
    simp only [Bool.false_eq_true, if_false]
    exact ih (fun y hy => h y (List.mem_cons_of_mem x hy))

/-- The row loop over equal per-row loaders yields equal results. -/
theorem loadRows_congr {f g : AlertRow → Option Alert} :
    ∀ {l : List AlertRow}, (∀ r ∈ l, f r = g r) → loadRows f l = loadRows g l := by
  intro l
  induction l with
  | nil => intro _; rfl
  | cons r rest ih =>
    intro h
    unfold loadRows
    rw [h r (List.mem_cons_self r rest), ih (fun x hx => h x (List.mem_cons_of_mem r hx))]

/-- The row loop over a single row whose load succeeds. -/
theorem loadRows_singleton {f : AlertRow → Option Alert} {r : AlertRow} {a : Alert}
    (h : f r = some a) : loadRows f [r] = some [a] := by
  unfold loadRows
  rw [h]
  rfl

/-- The row loop distributes over appended row lists when both halves
succeed. -/
theorem loadRows_append {f : AlertRow → Option Alert} {l2 : List AlertRow}
    {a2 : List Alert} (h2 : loadRows f l2 = some a2) :
    ∀ {l1 : List AlertRow} {a1 : List Alert}, loadRows f l1 = some a1 →
      loadRows f (l1 ++ l2) = some (a1 ++ a2) := by
  intro l1
  induction l1 with
  | nil =>
    intro a1 h1
    unfold loadRows at h1
    have h' := Option.some.inj h1
    subst h'
    exact h2
  | cons r rest ih =>
    intro a1 h1
    unfold loadRows at h1
    rw [List.cons_append]
    unfold loadRows
    cases hf : f r with
    | none => rw [hf] at h1; simp at h1
    | some a =>
      rw [hf] at h1
      cases hr : loadRows f rest with
      | none => rw [hr] at h1; simp at h1
      | some arest =>
        rw [hr] at h1
        simp only [Option.some.injEq] at h1
        subst h1
        rw [ih hr]
        rfl

/-- Every row the asset-store loop writes carries the parent id. -/
theorem mkAssetRows_alertId :
    ∀ (assets : List Asset) (aid n : Int) (r : AssetRow),
      r ∈ mkAssetRows aid n assets → r.alertId = aid := by
  intro assets
  induction assets with
  | nil =>
    intro aid n r h
    unfold mkAssetRows at h
    cases h
  | cons a rest ih =>
    intro aid n r h
    unfold mkAssetRows at h
    rcases List.mem_cons.mp h with h | h
    · subst h; rfl
    · exact ih aid (n + 1) r h

/-- Reading back the avs_id and url of the written asset rows restores
the asset list. -/
theorem mkAssetRows_map :
    ∀ (assets : List Asset) (aid n : Int),
      (mkAssetRows aid n assets).map (fun r => Asset.mk r.avsId r.url) = assets := by
  intro assets
  induction assets with
  | nil => intro aid n; rfl
  | cons a rest ih =>
    intro aid n
    unfold mkAssetRows
    rw [List.map_cons, ih aid (n + 1)]

/-- Filtering the written asset rows by the parent id keeps them all. -/
theorem mkAssetRows_filter (assets : List Asset) (aid n : Int) :
    (mkAssetRows aid n assets).filter (fun r => r.alertId == aid) =
      mkAssetRows aid n assets :=
  List.filter_eq_self.mpr
    (fun r hr => by simp [mkAssetRows_alertId assets aid n r hr])

/-- Upserting a fresh key appends the asset. -/
theorem upsertAsset_append {acc : List Asset} {a : Asset} (h : ∀ x ∈ acc, x.id ≠ a.id) :
    upsertAsset acc a = acc ++ [a] := by
  have hc : ¬ (acc.any (fun x => x.id == a.id) = true) := by
    rw [List.any_eq_true]
    rintro ⟨x, hx, hbeq⟩
    exact h x hx (by simpa using hbeq)
  unfold upsertAsset
  rw [if_neg hc]

/-- Folding upserts of pairwise fresh keys just appends the assets. -/
theorem foldl_upsertAsset :
    ∀ (l acc : List Asset), ((acc ++ l).map (fun x => x.id)).Nodup →
      l.foldl upsertAsset acc = acc ++ l := by
  intro l
  induction l with
  | nil =>
    intro acc _
    rw [List.append_nil]
    rfl
  | cons a rest ih =>
    intro acc hnd
    have hmap : ((acc.map (fun x => x.id)) ++ ((a :: rest).map (fun x => x.id))).Nodup := by
      rw [← List.map_append]
      exact hnd
    obtain ⟨-, -, disj⟩ := List.nodup_append.mp hmap
    have hno : ∀ x ∈ acc, x.id ≠ a.id := fun x hx he =>
      disj (List.mem_map_of_mem _ hx)
        (he ▸ List.mem_map_of_mem _ (List.mem_cons_self a rest))
    rw [List.foldl_cons, upsertAsset_append hno]
    have hnd2 : (((acc ++ [a]) ++ rest).map (fun x => x.id)).Nodup := by
      rw [List.append_assoc, List.singleton_append]
      exact hnd
    rw [ih (acc ++ [a]) hnd2, List.append_assoc, List.singleton_append]

/-- Every row the play-order loop writes carries the parent id. -/
theorem mkPlayOrderRows_alertId :
    ∀ (items : List String) (aid n pos : Int) (r : PlayOrderRow),
      r ∈ mkPlayOrderRows aid n pos items → r.alertId = aid := by
  intro items
  induction items with
  | nil =>
    intro aid n pos r h
    unfold mkPlayOrderRows at h
    cases h
  | cons tok rest ih =>
    intro aid n pos r h
    unfold mkPlayOrderRows at h
    rcases List.mem_cons.mp h with h | h
    · subst h; rfl
    · exact ih aid (n + 1) (pos + 1) r h

/-- Positions the play-order loop writes are bounded below by the
starting position. -/
theorem mkPlayOrderRows_pos_lb :
    ∀ (items : List String) (aid n pos : Int) (r : PlayOrderRow),
      r ∈ mkPlayOrderRows aid n pos items → pos ≤ r.position := by
  intro items
  induction items with
  | nil =>
    intro aid n pos r h
    unfold mkPlayOrderRows at h
    cases h
  | cons tok rest ih =>
    intro aid n pos r h
    unfold mkPlayOrderRows at h
    rcases List.mem_cons.mp h with h | h
    · subst h; exact le_refl pos
    · have := ih aid (n + 1) (pos + 1) r h
      omega

/-- Filtering the written play-order rows by the parent id keeps them
all. -/
theorem mkPlayOrderRows_filter (items : List String) (aid n pos : Int) :
    (mkPlayOrderRows aid n pos items).filter (fun r => r.alertId == aid) =
      mkPlayOrderRows aid n pos items :=
  List.filter_eq_self.mpr
    (fun r hr => by simp [mkPlayOrderRows_alertId items aid n pos r hr])

/-- The items of the written play-order rows are sorted by position. -/
theorem mkPlayOrderRows_sorted :
    ∀ (items : List String) (aid n pos : Int),
      List.Sorted itemLt ((mkPlayOrderRows aid n pos items).map
        (fun r => AssetOrderItem.mk r.position r.token)) := by
  intro items
  induction items with
  | nil =>
    intro aid n pos
    exact List.sorted_nil
  | cons tok rest ih =>
    intro aid n pos
    unfold mkPlayOrderRows
    rw [List.map_cons]
    refine List.pairwise_cons.mpr ⟨?_, ih aid (n + 1) (pos + 1)⟩
    intro y hy
    rw [List.mem_map] at hy
    obtain ⟨r, hr, hyeq⟩ := hy
    have hlb := mkPlayOrderRows_pos_lb rest aid (n + 1) (pos + 1) r hr
    rw [← hyeq]
    show pos < r.position
    omega

/-- Reading back the tokens of the written play-order rows restores the
play-order list. -/
theorem mkPlayOrderRows_token_map :
    ∀ (items : List String) (aid n pos : Int),
      (mkPlayOrderRows aid n pos items).map (fun r => r.token) = items := by
  intro items
  induction items with
  | nil => intro aid n pos; rfl
  | cons tok rest ih =>
    intro aid n pos
    unfold mkPlayOrderRows
    rw [List.map_cons, ih aid (n + 1) (pos + 1)]

/-- Names of raw row items are the row tokens. -/
theorem map_name_map_mk (rows : List PlayOrderRow) :
    (rows.map (fun r => AssetOrderItem.mk r.position r.token)).map (fun x => x.name) =
      rows.map (fun r => r.token) := by
  induction rows with
  | nil => rfl
  | cons r rest ih => simp only [List.map_cons, ih]

/-- Strictly sorted items have pairwise distinct indices. -/
theorem nodup_index_of_sorted {l : List AssetOrderItem} (h : List.Sorted itemLt l) :
    (l.map (fun x => x.index)).Nodup :=
  List.Pairwise.map _ (fun _ _ hab => ne_of_lt hab) h

/-- Folding set insertions over an already position-sorted item list
returns it unchanged. -/
theorem foldl_insertOrderItem_of_sorted {l : List AssetOrderItem}
    (h : List.Sorted itemLt l) :
    l.foldl (fun s i => insertOrderItem i s) [] = l := by
  have hnd : ((([] : List AssetOrderItem) ++ l).map (fun x => x.index)).Nodup :=
    nodup_index_of_sorted h
  have hperm := foldl_insertOrderItem_perm l [] hnd
  have hsorted := foldl_insertOrderItem_sorted l [] List.sorted_nil
  exact List.eq_of_perm_of_sorted hperm hsorted h

/-- Loading the assets of the freshly stored alert restores its asset
catalog when the catalog keys are pairwise distinct. -/
theorem loadAlertAssets_store_self {db2 : Database} {rows : List AssetRow} {id : Int}
    {assets : List Asset}
    (htab : db2.alertAssets = storeAlertAssets rows id assets)
    (hfresh : ∀ r ∈ rows, r.alertId ≠ id)
    (hnd : (assets.map (fun x => x.id)).Nodup) :
    loadAlertAssets db2 id = assets := by
  have hfilter0 : rows.filter (fun r => r.alertId == id) = [] :=
    filter_eq_nil_of_ne (fun r hr => by simp [hfresh r hr])
  unfold loadAlertAssets assetsOf
  rw [htab]
  unfold storeAlertAssets
  by_cases he : assets.isEmpty
  · rw [if_pos he, hfilter0]
    have hnil : assets = [] := List.isEmpty_iff.mp he
    subst hnil
    rfl
  · rw [if_neg he, List.filter_append, hfilter0, List.nil_append, mkAssetRows_filter,
      mkAssetRows_map]
    exact foldl_upsertAsset assets [] hnd

/-- Loading the assets of any other alert is unaffected by the store. -/
theorem loadAlertAssets_store_other {db2 db : Database} {id aid : Int}
    {assets : List Asset}
    (htab : db2.alertAssets = storeAlertAssets db.alertAssets id assets)
    (hne : aid ≠ id) :
    loadAlertAssets db2 aid = loadAlertAssets db aid := by
  unfold loadAlertAssets assetsOf
  rw [htab]
  unfold storeAlertAssets
  by_cases he : assets.isEmpty
  · rw [if_pos he]
  · rw [if_neg he, List.filter_append]
    have hnil : (mkAssetRows id
        (getTableMaxIntValue (db.alertAssets.map (fun r => r.id)) + 1) assets).filter
        (fun r => r.alertId == aid) = [] :=
      filter_eq_nil_of_ne (fun r hr => by
        have hrid := mkAssetRows_alertId assets id _ r hr
        simp [hrid, Ne.symm hne])
    rw [hnil, List.append_nil]

/-- Loading the play order of the freshly stored alert restores its
play-order token list. -/
theorem loadPlayOrder_store_self {db2 : Database} {rows : List PlayOrderRow} {id : Int}
    {items : List String}
    (htab : db2.playOrderItems = storeAlertAssetPlayOrderItems rows id items)
    (hfresh : ∀ r ∈ rows, r.alertId ≠ id) :
    (loadAlertAssetPlayOrderItems db2 id).map (fun i => i.name) = items := by
  have hfilter0 : rows.filter (fun r => r.alertId == id) = [] :=
    filter_eq_nil_of_ne (fun r hr => by simp [hfresh r hr])
  unfold loadAlertAssetPlayOrderItems playOrderItemsOf
  rw [htab]
  unfold storeAlertAssetPlayOrderItems
  by_cases he : items.isEmpty
  · rw [if_pos he, hfilter0]
    have hnil : items = [] := List.isEmpty_iff.mp he
    subst hnil
    rfl
  · rw [if_neg he, List.filter_append, hfilter0, List.nil_append, mkPlayOrderRows_filter,
      foldl_insertOrderItem_of_sorted (mkPlayOrderRows_sorted items id _ 1),
      map_name_map_mk, mkPlayOrderRows_token_map]

/-- Loading the play order of any other alert is unaffected by the
store. -/
theorem loadPlayOrder_store_other {db2 db : Database} {id aid : Int}
    {items : List String}
    (htab : db2.playOrderItems = storeAlertAssetPlayOrderItems db.playOrderItems id items)
    (hne : aid ≠ id) :
    loadAlertAssetPlayOrderItems db2 aid = loadAlertAssetPlayOrderItems db aid := by
  unfold loadAlertAssetPlayOrderItems playOrderItemsOf
  rw [htab]
  unfold storeAlertAssetPlayOrderItems
  by_cases he : items.isEmpty
  · rw [if_pos he]
  · rw [if_neg he, List.filter_append]
    have hnil : (mkPlayOrderRows id
        (getTableMaxIntValue (db.playOrderItems.map (fun r => r.id)) + 1) 1 items).filter
        (fun r => r.alertId == aid) = [] :=
      filter_eq_nil_of_ne (fun r hr => by
        have hrid := mkPlayOrderRows_alertId items id _ 1 r hr
        simp [hrid, Ne.symm hne])
    rw [hnil, List.append_nil]

/-- loadAlertRow only depends on the database through the children it
attaches. -/
theorem loadAlertRow_congr_children {p : String → Int} {db db2 : Database} {r : AlertRow}
    (hA : loadAlertAssets db2 r.id = loadAlertAssets db r.id)
    (hP : loadAlertAssetPlayOrderItems db2 r.id = loadAlertAssetPlayOrderItems db r.id) :
    loadAlertRow p db2 r = loadAlertRow p db r := by
  unfold loadAlertRow
  rw [hA, hP]

/-- A row whose type and state codes decode loads into the fully
populated alert. -/
theorem loadAlertRow_eq_some (p : String → Int) (db : Database) (r : AlertRow)
    {ty : AlertType} {st : AlertState}
    (hty : dbFieldToAlertType r.type = some ty)
    (hst : dbFieldToAlertState r.state = some st) :
    loadAlertRow p db r =
      some { dbId := r.id, token := r.token, type := ty, state := st,
             scheduledTimeUnix := p r.scheduledTimeIso,
             scheduledTimeIso := r.scheduledTimeIso,
             loopCount := r.assetLoopCount, loopPauseMs := r.assetLoopPauseMs,
             backgroundAssetId := r.backgroundAsset,
             assets := loadAlertAssets db r.id,
             assetPlayOrderItems :=
               (loadAlertAssetPlayOrderItems db r.id).map (fun i => i.name) } := by
  unfold loadAlertRow
  rw [hty, hst]

/-- The freshly written parent row loads back as the original alert with
the assigned id written into it. -/
theorem loadAlertRow_storedRow {p : String → Int} {db2 : Database} {id : Int} {A : Alert}
    (hiso : p A.scheduledTimeIso = A.scheduledTimeUnix)
    (hA : loadAlertAssets db2 id = A.assets)
    (hP : (loadAlertAssetPlayOrderItems db2 id).map (fun i => i.name) =
      A.assetPlayOrderItems) :
    loadAlertRow p db2 (storedAlertRow id A) = some { A with dbId := id } := by
  have h := loadAlertRow_eq_some p db2 (storedAlertRow id A)
    (dbFieldToAlertType_code A.type) (dbFieldToAlertState_roundtrip A.state)
  rw [h]
  simp [storedAlertRow, hiso, hA, hP]

end RoundTripLemmas

/-- Claim C1: storing an alert with arbitrary asset catalog and
play-order list into an open database and loading yields, after the
previously loadable alerts, an alert equal to the stored one in every
public field, asset catalog and play-order sequence, with the assigned
id written in.  Hypotheses: the iso string parses to the alert's unix
time (the source reconstructs the unix time from the iso string on
load), the catalog keys are pairwise distinct, and no pre-existing child
row already carries the freshly assigned alert id. -/
theorem store_load_roundtrip (parseIso : String → Int) (db : Database) (A : Alert)
    (id : Int) (db2 : Database) (prev : List Alert)
    (hstore : store db A = some (id, db2))
    (hiso : parseIso A.scheduledTimeIso = A.scheduledTimeUnix)
    (hassets : (A.assets.map (fun x => x.id)).Nodup)
    (hfreshA : ∀ r ∈ db.alertAssets, r.alertId ≠ id)
    (hfreshP : ∀ r ∈ db.playOrderItems, r.alertId ≠ id)
    (hprev : load parseIso db = some prev) :
    load parseIso db2 = some (prev ++ [{ A with dbId := id }]) := by
  obtain ⟨-, hid, hdb⟩ := store_elim hstore
  have htabA : db2.alertAssets = storeAlertAssets db.alertAssets id A.assets := by
    rw [hdb]
  have htabP : db2.playOrderItems =
      storeAlertAssetPlayOrderItems db.playOrderItems id A.assetPlayOrderItems := by
    rw [hdb]
  have halerts : db2.alerts = db.alerts ++ [storedAlertRow id A] := by
    rw [hdb]
  have hselfA : loadAlertAssets db2 id = A.assets :=
    loadAlertAssets_store_self htabA hfreshA hassets
  have hselfP : (loadAlertAssetPlayOrderItems db2 id).map (fun i => i.name) =
      A.assetPlayOrderItems :=
    loadPlayOrder_store_self htabP hfreshP
  have hrow : loadAlertRow parseIso db2 (storedAlertRow id A) =
      some { A with dbId := id } :=
    loadAlertRow_storedRow hiso hselfA hselfP
  have hstable : ∀ r ∈ db.alerts,
      loadAlertRow parseIso db2 r = loadAlertRow parseIso db r := by
    intro r hr
    have hle : r.id ≤ getTableMaxIntValue (db.alerts.map (fun x => x.id)) :=
      mem_le_getTableMaxIntValue (List.mem_map_of_mem _ hr)
    have hne : r.id ≠ id := by omega
    exact loadAlertRow_congr_children (loadAlertAssets_store_other htabA hne)
      (loadPlayOrder_store_other htabP hne)
  unfold load
  rw [halerts]
  have hl1 : loadRows (loadAlertRow parseIso db2) db.alerts = some prev := by
    rw [loadRows_congr hstable]
    exact hprev
  exact loadRows_append (loadRows_singleton hrow) hl1

/-- Claim C1 witness: a concrete alert with two assets and a repeated
play-order token survives the store-load round trip. -/
theorem store_load_roundtrip_witness :
    load w1Parse w1Db = some ([] ++ [{ w1Alert with dbId := 1 }]) :=
  store_load_roundtrip w1Parse dbEmpty w1Alert 1 w1Db [] (by decide) rfl
    (by decide) (by decide) (by decide) (by decide)

section MigrationLemmas

/-- A row with decodable type and state codes loads successfully. -/
theorem loadAlertRow_isSome {p : String → Int} {db : Database} {r : AlertRow}
    (hty : (dbFieldToAlertType r.type).isSome = true)
    (hst : (dbFieldToAlertState r.state).isSome = true) :
    (loadAlertRow p db r).isSome = true := by
  cases hty2 : dbFieldToAlertType r.type with
  | none => rw [hty2] at hty; simp at hty
  | some ty =>
    cases hst2 : dbFieldToAlertState r.state with
    | none => rw [hst2] at hst; simp at hst
    | some st =>
      rw [loadAlertRow_eq_some _ _ _ hty2 hst2]
      rfl

/-- When every row loads, the row loop yields a list related row-by-row
to the input. -/
theorem loadRows_forall₂ {f : AlertRow → Option Alert} :
    ∀ {l : List AlertRow}, (∀ r ∈ l, (f r).isSome = true) →
      ∃ as, loadRows f l = some as ∧
        List.Forall₂ (fun r a => f r = some a) l as := by
  intro l
  induction l with
  | nil => intro _; exact ⟨[], rfl, List.Forall₂.nil⟩
  | cons r rest ih =>
    intro h
    obtain ⟨as, hload, hfa⟩ := ih (fun x hx => h x (List.mem_cons_of_mem r hx))
    cases hf : f r with
    | none =>
      have hthis := h r (List.mem_cons_self r rest)
      rw [hf] at hthis
      simp at hthis
    | some a =>
      refine ⟨a :: as, ?_, List.Forall₂.cons hf hfa⟩
      unfold loadRows
      rw [hf, hload]

/-- A row loaded against empty child tables satisfies the migration
relation to its source row. -/
theorem loadAlertRow_migrated {p : String → Int} {db : Database} {r : AlertRow} {a : Alert}
    (hA : db.alertAssets = []) (hP : db.playOrderItems = [])
    (h : loadAlertRow p db r = some a) : migratedAlertOf p r a := by
  cases hty : dbFieldToAlertType r.type with
  | none => unfold loadAlertRow at h; rw [hty] at h; simp at h
  | some ty =>
    cases hst : dbFieldToAlertState r.state with
    | none => unfold loadAlertRow at h; rw [hty, hst] at h; simp at h
    | some st =>
      rw [loadAlertRow_eq_some _ _ _ hty hst] at h
      have h2 := Option.some.inj h
      subst h2
      have hA0 : loadAlertAssets db r.id = [] := by
        unfold loadAlertAssets assetsOf
        rw [hA]
        rfl
      have hP0 : loadAlertAssetPlayOrderItems db r.id = [] := by
        unfold loadAlertAssetPlayOrderItems playOrderItemsOf
        rw [hP]
        rfl
      exact ⟨rfl, hA0, by rw [hP0]; rfl,
        alertTypeToDbField_of_dbField hty, alertStateToDbField_of_dbField hst,
        rfl, rfl, rfl, rfl, rfl⟩

/-- The migration store loop: inserting alerts loaded from V1 rows with
empty children and pairwise distinct tokens into a V2 store with empty
child tables appends exactly the source rows renumbered from
max-plus-one. -/
theorem storeList_migrated (p : String → Int) :
    ∀ (rows : List AlertRow) (alerts : List Alert),
      List.Forall₂ (migratedAlertOf p) rows alerts →
      ∀ acc : List AlertRow,
      ((rows.map (fun r => r.token)).Nodup) →
      (∀ r ∈ rows, ∀ x ∈ acc, x.token ≠ r.token) →
      (∀ r ∈ rows, p r.scheduledTimeIso = r.scheduledTimeUnix) →
      storeList { alerts := acc, alertAssets := [], playOrderItems := [] } alerts =
        some { alerts := acc ++
                 renumberFrom (getTableMaxIntValue (acc.map (fun x => x.id)) + 1) rows,
               alertAssets := [], playOrderItems := [] } := by
  intro rows alerts hfa
  induction hfa with
  | nil =>
    intro acc _ _ _
    unfold storeList
    have hnil : acc ++
        renumberFrom (getTableMaxIntValue (acc.map (fun x => x.id)) + 1) [] = acc := by
      rw [show renumberFrom (getTableMaxIntValue (acc.map (fun x => x.id)) + 1) [] =
        ([] : List AlertRow) from rfl, List.append_nil]
    rw [hnil]
  | @cons r a rows2 alerts2 hra hrest ih =>
    intro acc hnd hdisj hp
    obtain ⟨htok, hassets, hpo, hty, hst, hux, hiso2, hlc, hlp, hbg⟩ := hra
    have hndtail : ((rows2.map (fun x => x.token)).Nodup) := by
      rw [List.map_cons] at hnd
      exact (List.nodup_cons.mp hnd).2
    have hnotmem : r.token ∉ rows2.map (fun x => x.token) := by
      rw [List.map_cons] at hnd
      exact (List.nodup_cons.mp hnd).1
    have hf0 : acc.filter (fun x => x.token == a.token) = [] :=
      filter_eq_nil_of_ne (fun x hx => by
        have hne := hdisj r (List.mem_cons_self r rows2) x hx
        rw [htok]
        simp [hne])
    have hex : alertExistsWithOutcome EngineOutcome.ok
        { alerts := acc, alertAssets := [], playOrderItems := [] } a.token = false := by
      show decide (countTokenRows
        { alerts := acc, alertAssets := [], playOrderItems := [] } a.token > 0) = false
      unfold countTokenRows
      dsimp only
      rw [hf0]
      rfl
    have htyc : alertTypeCode a.type = r.type := by
      have h1 := alertTypeToDbField_typeName a.type
      rw [hty] at h1
      exact (Option.some.inj h1).symm
    have hrow : storedAlertRow (getTableMaxIntValue (acc.map (fun x => x.id)) + 1) a =
        { r with id := getTableMaxIntValue (acc.map (fun x => x.id)) + 1 } := by
      unfold storedAlertRow
      rw [htok, htyc, hst, hux, hp r (List.mem_cons_self r rows2), hiso2, hlc, hlp, hbg]
    have hstore : store { alerts := acc, alertAssets := [], playOrderItems := [] } a =
        some (getTableMaxIntValue (acc.map (fun x => x.id)) + 1,
          { alerts := acc ++
                        [{ r with
                             id := getTableMaxIntValue (acc.map (fun x => x.id)) + 1 }],
            alertAssets := [], playOrderItems := [] }) := by
      unfold store storeWithOutcome
      rw [hex]
      simp only [Bool.false_eq_true, if_false]
      rw [insertAlert_eq]
      dsimp only
      rw [hassets, hpo, hrow]
      rfl
    unfold storeList
    rw [hstore]
    show storeList
        { alerts := acc ++
                      [{ r with
                           id := getTableMaxIntValue (acc.map (fun x => x.id)) + 1 }],
          alertAssets := [], playOrderItems := [] } alerts2 =
      some { alerts := acc ++
               renumberFrom (getTableMaxIntValue (acc.map (fun x => x.id)) + 1)
                 (r :: rows2),
             alertAssets := [], playOrderItems := [] }
    have hdisj2 : ∀ r2 ∈ rows2, ∀ x : AlertRow, x ∈ acc ++
        [{ r with id := getTableMaxIntValue (acc.map (fun x => x.id)) + 1 }] →
        x.token ≠ r2.token := by
      intro r2 hr2 x hx
      rcases List.mem_append.mp hx with hx | hx
      · exact hdisj r2 (List.mem_cons_of_mem r hr2) x hx
      · rw [List.mem_singleton.mp hx]
        show r.token ≠ r2.token
        intro he
        exact hnotmem (he ▸ List.mem_map_of_mem _ hr2)
    have ih2 := ih (acc ++
        [{ r with id := getTableMaxIntValue (acc.map (fun x => x.id)) + 1 }])
      hndtail hdisj2 (fun r2 hr2 => hp r2 (List.mem_cons_of_mem r hr2))
    have hmax : getTableMaxIntValue ((acc ++
        [{ r with id := getTableMaxIntValue (acc.map (fun x : AlertRow => x.id)) + 1 }]).map
          (fun x : AlertRow => x.id)) =
        getTableMaxIntValue (acc.map (fun x => x.id)) + 1 := by
      rw [List.map_append, List.map_cons, List.map_nil,
        getTableMaxIntValue_append_singleton]
      show max (getTableMaxIntValue (acc.map (fun x => x.id)))
        (getTableMaxIntValue (acc.map (fun x => x.id)) + 1) = _
      rw [max_eq_right (by omega)]
    rw [hmax] at ih2
    have hfinal : (acc ++
        [{ r with id := getTableMaxIntValue (acc.map (fun x => x.id)) + 1 }]) ++
          renumberFrom (getTableMaxIntValue (acc.map (fun x => x.id)) + 1 + 1) rows2 =
        acc ++ renumberFrom (getTableMaxIntValue (acc.map (fun x => x.id)) + 1)
          (r :: rows2) := by
      rw [List.append_assoc, List.singleton_append]
      rfl
    exact ih2.trans (by rw [hfinal])

end MigrationLemmas

/-- Claim C2: opening a file in which alerts_v2 already exists leaves it
unchanged; a file holding only a V1 alerts table with decodable rows,
consistent iso strings and pairwise distinct tokens migrates to a file
whose alerts_v2 holds the same rows renumbered from 1 (equivalent in
every column except the freshly assigned id), empty child tables, and no
V1 table; a file with neither table gains the three empty V2 tables. -/
theorem migration_v1_to_v2 (parseIso : String → Int) :
    (∀ (f : FileState) (rows : List AlertRow), f.alertsV2 = some rows →
      migrateAlertsDbFromV1ToV2 parseIso f = some f) ∧
    (∀ v1rows : List AlertRow,
      (∀ r ∈ v1rows, (dbFieldToAlertType r.type).isSome = true ∧
        (dbFieldToAlertState r.state).isSome = true ∧
        parseIso r.scheduledTimeIso = r.scheduledTimeUnix) →
      (v1rows.map (fun r => r.token)).Nodup →
      migrateAlertsDbFromV1ToV2 parseIso
        { alertsV2 := none, alertsV1 := some v1rows, assetsTable := none,
          playOrderTable := none } =
        some { alertsV2 := some (renumberFrom 1 v1rows), alertsV1 := none,
               assetsTable := some [], playOrderTable := some [] }) ∧
    (migrateAlertsDbFromV1ToV2 parseIso
      { alertsV2 := none, alertsV1 := none, assetsTable := none,
        playOrderTable := none } =
      some { alertsV2 := some [], alertsV1 := none, assetsTable := some [],
             playOrderTable := some [] }) := by
  refine ⟨?_, ?_, ?_⟩
  · intro f rows h
    unfold migrateAlertsDbFromV1ToV2
    rw [h]
    rfl
  · intro v1rows hv hnd
    have hsome : ∀ r ∈ v1rows, (loadAlertRow parseIso
        { alerts := v1rows, alertAssets := [], playOrderItems := [] } r).isSome = true :=
      fun r hr => loadAlertRow_isSome (hv r hr).1 (hv r hr).2.1
    obtain ⟨as, hload, hfa⟩ := loadRows_forall₂ hsome
    have hfa2 : List.Forall₂ (migratedAlertOf parseIso) v1rows as :=
      hfa.imp (fun r a h => loadAlertRow_migrated rfl rfl h)
    have hsl := storeList_migrated parseIso v1rows as hfa2 []
      hnd (fun r _ x hx => absurd hx (List.not_mem_nil x)) (fun r hr => (hv r hr).2.2)
    have step1 : migrateAlertsDbFromV1ToV2 parseIso
        { alertsV2 := none, alertsV1 := some v1rows, assetsTable := none,
          playOrderTable := none } =
        (match loadRows (loadAlertRow parseIso
            { alerts := v1rows, alertAssets := [], playOrderItems := [] }) v1rows with
         | none => none
         | some alertList =>
           match storeList { alerts := [], alertAssets := [], playOrderItems := [] }
               alertList with
           | none => none
           | some db2 => some { alertsV2 := some db2.alerts, alertsV1 := none,
                                assetsTable := some db2.alertAssets,
                                playOrderTable := some db2.playOrderItems }) := rfl
    rw [step1, hload]
    show ((match storeList { alerts := [], alertAssets := [], playOrderItems := [] } as with
           | none => none
           | some db2 => some { alertsV2 := some db2.alerts, alertsV1 := none,
                                assetsTable := some db2.alertAssets,
                                playOrderTable := some db2.playOrderItems }) :
        Option FileState) =
      some { alertsV2 := some (renumberFrom 1 v1rows), alertsV1 := none,
             assetsTable := some [], playOrderTable := some [] }
    rw [hsl]
    rfl
  · rfl

/-- Claim C2 witness: the three scenarios at concrete files (a V2 file
with two rows, a V1-only file with two rows, and an empty file). -/
theorem migration_v1_to_v2_witness :
    migrateAlertsDbFromV1ToV2 w2Parse
      { alertsV2 := some w2Rows, alertsV1 := none, assetsTable := none,
        playOrderTable := none } =
      some { alertsV2 := some w2Rows, alertsV1 := none, assetsTable := none,
             playOrderTable := none } ∧
    migrateAlertsDbFromV1ToV2 w2Parse
      { alertsV2 := none, alertsV1 := some w2Rows, assetsTable := none,
        playOrderTable := none } =
      some { alertsV2 := some (renumberFrom 1 w2Rows), alertsV1 := none,
             assetsTable := some [], playOrderTable := some [] } ∧
    migrateAlertsDbFromV1ToV2 w2Parse
      { alertsV2 := none, alertsV1 := none, assetsTable := none,
        playOrderTable := none } =
      some { alertsV2 := some [], alertsV1 := none, assetsTable := some [],
             playOrderTable := some [] } :=
  ⟨(migration_v1_to_v2 w2Parse).1 _ w2Rows rfl,
   (migration_v1_to_v2 w2Parse).2.1 w2Rows (by decide) (by decide),
   (migration_v1_to_v2 w2Parse).2.2⟩

end AlertStorage
